import Mathlib

/-!
Verification of the CVM fund-report ingestion pipeline
(`src/scripts/ingestion_robot.py`).

Modelling conventions:
* a pandas cell is a `Value`: a string, a number, a date, or the explicit
  absence marker `na` (modelling `NaN`/`NaT`);
* numbers are modelled as rationals; every numeric value appearing in the
  claims is exactly representable, so no rounding behaviour is involved;
* a date is modelled as an integer ordinal (the concrete encoding
  `year*10000 + month*100 + day` is order-preserving on valid dates);
* a `Row` is an association list from column name to `Value`; a missing
  binding models a column absent from the frame (pandas surfaces this as
  `NaN`, and the derivations below treat the two alike, matching
  `column in row` / `pd.notna` guards in the source);
* a `DataFrame` is a column-name list together with a row list;
* library parsers (`pd.to_numeric`, `pd.to_datetime`) are modelled as total
  parsers for plain decimal literals and ISO `YYYY-MM-DD` dates, with
  failure mapped to `na` (mirroring `errors="coerce"`); the claims do not
  exercise other input formats;
* `float(...)` applied to a non-numeric, non-parseable value raises in the
  source; those paths are unreachable in the pipeline (the consulted columns
  are numeric-coerced first) and are modelled as `none`.
-/

set_option allowUnsafeReducibility true
attribute [semireducible] Rat.mul Rat.inv Rat.add Rat.sub Rat.ofScientific

/-- Typed cell content of a table after (possibly partial) coercion.
`na` is the explicit absence marker (`NaN` / `NaT` / `None`). -/
inductive Value where
  | str : String → Value
  | num : ℚ → Value
  | date : Int → Value
  | na : Value
deriving DecidableEq, Repr

/-- One table row: an association list from column label to cell value. -/
abbrev Row := List (String × Value)

/-- Cell lookup by column label (first binding wins, as in a rectangular
frame where labels are unique). -/
def cellOf (r : Row) (c : String) : Option Value :=
  List.lookup c r

/-- In-memory table: ordered column labels plus rows. -/
structure DataFrame where
  cols : List String
  rows : List Row
deriving DecidableEq, Repr

/-- Column lists of the source (`KEY_COLUMNS`). -/
def KEY_COLUMNS : List String := ["CNPJ_Fundo_Classe", "Data_Referencia", "Versao"]

/-- Date-typed columns of the source (`DATE_COLUMNS`). -/
def DATE_COLUMNS : List String := ["Data_Referencia", "Data_Entrega"]

/-- Numeric-typed columns of the source (`NUMERIC_COLUMNS`). -/
def NUMERIC_COLUMNS : List String :=
  ["Patrimonio_Liquido", "Total_Investido", "Cotas_Emitidas", "Numero_Cotistas",
   "Rendimento_Distribuido", "Rendimento_Cota", "Preco_Cota"]

/-! ### Parsers (model of `pd.to_numeric` / `pd.to_datetime` with `errors="coerce"`) -/

/-- Digits of a character list interpreted as a natural number, if nonempty
and all decimal digits. -/
def digitsToNat : List Char → Option Nat
  | [] => none
  | cs =>
    if cs.all (fun c => c.isDigit) then
      some (cs.foldl (fun acc c => acc * 10 + (c.toNat - '0'.toNat)) 0)
    else none

/-- Parse a signed decimal literal (`-12`, `3.5`, `7`) into a rational.
Model of the string fragment of `pd.to_numeric`; other numeric formats are
not exercised by the claims. -/
def parseRat (s : String) : Option ℚ :=
  let cs := s.toList
  let (sign, body) :=
    match cs with
    | '-' :: rest => ((-1 : ℚ), rest)
    | '+' :: rest => ((1 : ℚ), rest)
    | _ => ((1 : ℚ), cs)
  match body.splitOn '.' with
  | [intPart] =>
    (digitsToNat intPart).map (fun n => sign * (n : ℚ))
  | [intPart, fracPart] =>
    match digitsToNat intPart, digitsToNat fracPart with
    | some n, some f => some (sign * ((n : ℚ) + (f : ℚ) / ((10 : ℚ) ^ fracPart.length)))
    | _, _ => none
  | _ => none

/-- Parse an ISO `YYYY-MM-DD` date into an order-preserving integer ordinal.
Model of the string fragment of `pd.to_datetime`. -/
def parseDate (s : String) : Option Int :=
  match s.toList.splitOn '-' with
  | [y, m, d] =>
    match digitsToNat y, digitsToNat m, digitsToNat d with
    | some yn, some mn, some dn =>
      if y.length = 4 ∧ m.length = 2 ∧ d.length = 2 ∧
          1 ≤ mn ∧ mn ≤ 12 ∧ 1 ≤ dn ∧ dn ≤ 31 then
        some ((yn : Int) * 10000 + (mn : Int) * 100 + (dn : Int))
      else none
    | _, _, _ => none
  | _ => none

/-- Numeric coercion of one cell: numbers pass through, parseable numeric
strings are converted, everything else becomes the absence marker
(`pd.to_numeric(..., errors="coerce")`). -/
def parseNumericCell : Value → Value
  | Value.num q => Value.num q
  | Value.str s => (parseRat s).elim Value.na Value.num
  | Value.date _ => Value.na
  | Value.na => Value.na

/-- Date coercion of one cell (`pd.to_datetime(..., errors="coerce")`):
dates pass through, parseable date strings are converted, everything else
becomes the absence marker. -/
def parseDateCell : Value → Value
  | Value.date d => Value.date d
  | Value.str s => (parseDate s).elim Value.na Value.date
  | Value.num _ => Value.na
  | Value.na => Value.na

/-- Rewrite the cell of one column in a row through a cell transformer. -/
def setCell (r : Row) (c : String) (f : Value → Value) : Row :=
  r.map (fun p => if p.1 = c then (p.1, f p.2) else p)

/-- Apply a cell transformer to a whole column of a frame. -/
def mapColumn (df : DataFrame) (c : String) (f : Value → Value) : DataFrame :=
  ⟨df.cols, df.rows.map (fun r => setCell r c f)⟩

/-- Model of `_coerce_numeric`: for each requested column that exists in the
frame, coerce its cells numerically; missing columns are skipped. -/
def _coerce_numeric (df : DataFrame) (columns : List String) : DataFrame :=
  columns.foldl
    (fun d c => if d.cols.contains c then mapColumn d c parseNumericCell else d) df

/-- Model of `_coerce_dates`: for each requested column that exists in the
frame, coerce its cells to dates; missing columns are skipped. -/
def _coerce_dates (df : DataFrame) (columns : List String) : DataFrame :=
  columns.foldl
    (fun d c => if d.cols.contains c then mapColumn d c parseDateCell else d) df

/-! ### Version resolver (`_filter_latest_versions`) -/

/-- Versao-coercion step of the resolver: `if "Versao" in df.columns:
df["Versao"] = pd.to_numeric(df["Versao"], errors="coerce")`. -/
def coerceVersaoDf (df : DataFrame) : DataFrame :=
  _coerce_numeric df ["Versao"]

/-- Field-presence test used by `dropna(subset=...)`: the column must exist
in the row and hold a non-absent value. -/
def keyFieldPresent (r : Row) (c : String) : Bool :=
  match cellOf r c with
  | some Value.na => false
  | some _ => true
  | none => false

/-- Rows surviving the coercion and the `dropna` over the two identity
columns. -/
def eligibleRows (df : DataFrame) : List Row :=
  (coerceVersaoDf df).rows.filter
    (fun r => keyFieldPresent r "CNPJ_Fundo_Classe" && keyFieldPresent r "Data_Referencia")

/-- Version sort key of a row after coercion: `some q` for a numeric
version, `none` for an absent or non-numeric one. -/
def verKey (r : Row) : Option ℚ :=
  match cellOf r "Versao" with
  | some (Value.num q) => some q
  | _ => none

/-- Boolean ordering test used by `sort_values("Versao", ascending=False,
na_position="last")`: numeric versions descending, absent versions after
every numeric one. -/
def verGEb (a b : Row) : Bool :=
  match verKey a, verKey b with
  | some x, some y => decide (y ≤ x)
  | some _, none => true
  | none, some _ => false
  | none, none => true

/-- Propositional form of the version ordering. -/
def verGE (a b : Row) : Prop := verGEb a b = true

instance : DecidableRel verGE := fun a b => instDecidableEqBool (verGEb a b) true

instance : IsTotal Row verGE := by
  constructor
  intro a b
  unfold verGE verGEb
  rcases verKey a with _ | x <;> rcases verKey b with _ | y <;> simp
  exact le_total y x

instance : IsTrans Row verGE := by
  constructor
  intro a b c hab hbc
  unfold verGE verGEb at hab hbc ⊢
  rcases ha : verKey a with _ | x <;> rcases hb : verKey b with _ | y <;>
    rcases hc : verKey c with _ | z <;> simp_all
  exact hbc.trans hab

/-- Deduplication key of a row: the `(CNPJ_Fundo_Classe, Data_Referencia)`
value pair (`drop_duplicates(subset=...)`). -/
def rkey (r : Row) : Option Value × Option Value :=
  (cellOf r "CNPJ_Fundo_Classe", cellOf r "Data_Referencia")

/-- Keep the first row per deduplication key
(`drop_duplicates(..., keep="first")`), threading the set of keys seen. -/
def dedupFirst : List Row → List (Option Value × Option Value) → List Row
  | [], _ => []
  | r :: rest, seen =>
    if rkey r ∈ seen then dedupFirst rest seen
    else r :: dedupFirst rest (rkey r :: seen)

/-- Sorting stage of the resolver. The source calls `sort_values` with the
library default sort kind; the model uses an insertion sort realizing the
same key ordering. -/
def sortedRows (df : DataFrame) : List Row :=
  List.insertionSort verGE (eligibleRows df)

/-- Model of `_filter_latest_versions`: coerce `Versao`, drop rows missing
an identity field, sort by version descending with absent versions last,
and keep the first row per `(CNPJ_Fundo_Classe, Data_Referencia)`. -/
def _filter_latest_versions (df : DataFrame) : DataFrame :=
  ⟨(coerceVersaoDf df).cols, dedupFirst (sortedRows df) []⟩

/-! ### Field precedence lookup (`_get_first_value`) -/

/-- Conversion of a present, non-absent cell by `float(...)`. Numeric cells
convert directly; numeric strings parse; the raising paths of `float` on
other values are unreachable in the pipeline and modelled as `none`. -/
def floatOfValue : Value → Option ℚ
  | Value.num q => some q
  | Value.str s => parseRat s
  | Value.date _ => none
  | Value.na => none

/-- Model of `_get_first_value`: the first candidate column that exists in
the row and holds a non-absent value is converted and returned; absent or
missing candidates are skipped. -/
def _get_first_value (r : Row) : List String → Option ℚ
  | [] => none
  | c :: rest =>
    match cellOf r c with
    | some Value.na => _get_first_value r rest
    | some v => floatOfValue v
    | none => _get_first_value r rest

/-! ### Asset-class classifier (`_asset_class_from_row`) -/

/-- Character-list test that `needle` begins `hay`. -/
def isPrefixList : List Char → List Char → Bool
  | [], _ => true
  | _ :: _, [] => false
  | a :: as, b :: bs => a = b && isPrefixList as bs

/-- Character-list substring search. -/
def containsSeg (needle : List Char) : List Char → Bool
  | [] => isPrefixList needle []
  | b :: bs => isPrefixList needle (b :: bs) || containsSeg needle bs

/-- String cells of a row, in column order (`row.values` filtered to
strings). -/
def strCells (r : Row) : List String :=
  r.filterMap (fun p => match p.2 with | Value.str s => some s | _ => none)

/-- Lowercase mapping of one character in the ASCII range; the keyword scan
only distinguishes ASCII letters. Model of the `.lower()` call. -/
def lowerChar (c : Char) : Char :=
  if 65 ≤ c.toNat ∧ c.toNat ≤ 90 then Char.ofNat (c.toNat + 32) else c

/-- Model of `_asset_class_from_row`: join the string cells with spaces,
lowercase, and scan for the keyword `fiagro`. -/
def _asset_class_from_row (r : Row) : String :=
  let classText := (String.intercalate " " (strCells r)).toList.map lowerChar
  if containsSeg "fiagro".toList classText then "fiagro" else "fii"

/-! ### Registry lookup and record builders -/

/-- Ticker lookup `ticker_map.get(row["CNPJ_Fundo_Classe"])`: the registry
map keys are strings, so only a string-valued cell can match. -/
def tickerOf (tm : List (String × String)) (r : Row) : Option String :=
  match cellOf r "CNPJ_Fundo_Classe" with
  | some (Value.str c) => List.lookup c tm
  | _ => none

/-- Python truthiness guard `if not ticker: continue`. -/
def tickerFalsy (t : Option String) : Bool :=
  match t with
  | none => true
  | some s => s = ""

/-- Python conditional expression `p / c if p and c else None`: both
operands must be present and nonzero (Python treats `0.0` as falsy). -/
def pyDivIf (p c : Option ℚ) : Option ℚ :=
  match p, c with
  | some x, some y => if x ≠ 0 ∧ y ≠ 0 then some (x / y) else none
  | _, _ => none

/-- Snapshot record pushed by `_build_current_payloads`. -/
structure CurrentPayload where
  ticker : String
  asset_class : String
  patrimonio_liquido : Option ℚ
  valor_patrimonial_cota : Option ℚ
  num_cotistas : Option ℚ
deriving DecidableEq, Repr

/-- Valuation record pushed by `_build_vp_history`. -/
structure VpRecord where
  ticker : String
  data_referencia : Option Int
  patrimonio_liquido : Option ℚ
  cotas_emitidas : Option ℚ
  valor_patrimonial_cota : Option ℚ
  p_vp : Option ℚ
deriving DecidableEq, Repr

/-- Dividend record pushed by `_build_dividend_history`. -/
structure DividendRecord where
  ticker : String
  data_referencia : Option Int
  dividendo : ℚ
deriving DecidableEq, Repr

/-- Date cell of a row, when it holds an actual date. -/
def dateCell (r : Row) : Option Int :=
  match cellOf r "Data_Referencia" with
  | some (Value.date d) => some d
  | _ => none

/-- Group key guard of `groupby("CNPJ_Fundo_Classe")`: rows with an absent
or missing group key belong to no group and are dropped by the join-filter
step. -/
def groupKeyOk (r : Row) : Bool :=
  match cellOf r "CNPJ_Fundo_Classe" with
  | some Value.na => false
  | some _ => true
  | none => false

/-- Greatest `Data_Referencia` among the rows of one `CNPJ_Fundo_Classe`
group, skipping absent dates (`groupby(...)["Data_Referencia"].max()`). -/
def maxDateFor : List Row → Option Value → Option Int
  | [], _ => none
  | r :: rest, c =>
    let m := maxDateFor rest c
    if cellOf r "CNPJ_Fundo_Classe" = c then
      match dateCell r, m with
      | some d, some m2 => some (max d m2)
      | some d, none => some d
      | none, _ => m
    else m

/-- Rows kept by the latest-period filter of `_build_current_payloads`: the
row's date must equal its group's maximum date (comparison with an absent
date is false, as in pandas). -/
def latestRows (df : DataFrame) : List Row :=
  df.rows.filter (fun r =>
    groupKeyOk r &&
      match dateCell r with
      | some d => maxDateFor df.rows (cellOf r "CNPJ_Fundo_Classe") = some d
      | none => false)

/-- Per-row body of the `_build_current_payloads` loop: skip rows without a
truthy ticker, otherwise assemble the snapshot payload. -/
def rowToCurrentPayload (tm : List (String × String)) (r : Row) : Option CurrentPayload :=
  let ticker := tickerOf tm r
  if tickerFalsy ticker then none
  else
    let patrimonio := _get_first_value r ["Patrimonio_Liquido"]
    let cotas := _get_first_value r ["Cotas_Emitidas"]
    some
      { ticker := ticker.getD ""
        asset_class := _asset_class_from_row r
        patrimonio_liquido := patrimonio
        valor_patrimonial_cota := pyDivIf patrimonio cotas
        num_cotistas := _get_first_value r ["Numero_Cotistas"] }

/-- Model of `_build_current_payloads`: latest-period rows, one optional
payload each. -/
def _build_current_payloads (df : DataFrame) (tm : List (String × String)) :
    List CurrentPayload :=
  (latestRows df).filterMap (rowToCurrentPayload tm)

/-- Per-row body of the `_build_vp_history` loop. -/
def rowToVpRecord (tm : List (String × String)) (r : Row) : Option VpRecord :=
  let ticker := tickerOf tm r
  if tickerFalsy ticker then none
  else
    let patrimonio := _get_first_value r ["Patrimonio_Liquido"]
    let cotas := _get_first_value r ["Cotas_Emitidas"]
    let price := _get_first_value r ["Preco_Cota"]
    let vpa := pyDivIf patrimonio cotas
    some
      { ticker := ticker.getD ""
        data_referencia := dateCell r
        patrimonio_liquido := patrimonio
        cotas_emitidas := cotas
        valor_patrimonial_cota := vpa
        p_vp := pyDivIf price vpa }

/-- Model of `_build_vp_history`: every resolved row yields at most one
valuation record. -/
def _build_vp_history (df : DataFrame) (tm : List (String × String)) : List VpRecord :=
  df.rows.filterMap (rowToVpRecord tm)

/-- Ordered dividend candidate columns of `_build_dividend_history`. -/
def dividend_columns : List String :=
  ["Rendimento_Distribuido", "Rendimento_Cota", "Dividendos_Distribuidos"]

/-- Per-row body of the `_build_dividend_history` loop: skip rows without a
truthy ticker, then skip rows whose first-precedence dividend value is
missing or zero (`if not dividend: continue`). -/
def rowToDividendRecord (tm : List (String × String)) (r : Row) : Option DividendRecord :=
  let ticker := tickerOf tm r
  if tickerFalsy ticker then none
  else
    match _get_first_value r dividend_columns with
    | none => none
    | some q =>
      if q = 0 then none
      else some { ticker := ticker.getD "", data_referencia := dateCell r, dividendo := q }

/-- Model of `_build_dividend_history`. -/
def _build_dividend_history (df : DataFrame) (tm : List (String × String)) :
    List DividendRecord :=
  df.rows.filterMap (rowToDividendRecord tm)

/-! ### Table merger (`geral.merge(ativo, on=KEY_COLUMNS, how="outer").merge(...)`)

Column-name collisions outside the join key are not modelled: the source
tables have disjoint non-key schemas (spec section 4.2), and no claim
exercises the suffixing policy. -/

/-- Join-key tuple of a row for a given key-column list. -/
def keyTuple (keys : List String) (r : Row) : List (Option Value) :=
  keys.map (cellOf r)

/-- Cells of a row outside the join key. -/
def nonKeyCells (keys : List String) (r : Row) : Row :=
  r.filter (fun p => !(keys.contains p.1))

/-- Row part of a full outer join on `keys`: every left row paired with its
key-matching right rows (kept alone when none match), then the unmatched
right rows. -/
def mergeRows (keys : List String) (aRows bRows : List Row) : List Row :=
  (aRows.flatMap (fun ra =>
    if (bRows.filter (fun rb => decide (keyTuple keys rb = keyTuple keys ra))).isEmpty
    then [ra]
    else (bRows.filter (fun rb => decide (keyTuple keys rb = keyTuple keys ra))).map
      (fun rb => ra ++ nonKeyCells keys rb)))
  ++ bRows.filter (fun rb =>
      !(aRows.any (fun ra => decide (keyTuple keys ra = keyTuple keys rb))))

/-- Full outer join of two frames on a key-column list. -/
def mergeOuter (keys : List String) (a b : DataFrame) : DataFrame :=
  ⟨a.cols ++ b.cols.filter (fun c => !(a.cols.contains c)), mergeRows keys a.rows b.rows⟩

/-- Three-way merge performed by `process_cvm_files`:
`geral.merge(ativo, on=KEY_COLUMNS, how="outer").merge(complemento,
on=KEY_COLUMNS, how="outer")`. -/
def merged_tables (geral ativo complemento : DataFrame) : DataFrame :=
  mergeOuter KEY_COLUMNS (mergeOuter KEY_COLUMNS geral ativo) complemento

/-- Identity columns named by the specification for the join ("the
Composite Key's two identity columns"); used only to state the claimed
join contract for comparison with the source's `KEY_COLUMNS` join. -/
def identityColumns : List String := ["CNPJ_Fundo_Classe", "Data_Referencia"]

/-- Three-way merge as the specification words it: an outer join on only
the two identity columns. Stated for comparison against `merged_tables`. -/
def merged_tables_spec (geral ativo complemento : DataFrame) : DataFrame :=
  mergeOuter identityColumns (mergeOuter identityColumns geral ativo) complemento

/-! ### Object store (in-place mutation model)

The pandas frames are mutable objects: `df[column] = ...` updates the
object the caller passed. The store maps object references (indices) to
frame values, so that in-place updates and object identity are explicit. -/

/-- Heap of frame objects; a reference is an index. -/
abbrev Store := List DataFrame

/-- Frame value currently held by a reference. -/
def Store.getF (s : Store) (ref : Nat) : DataFrame :=
  s.getD ref ⟨[], []⟩

/-- Overwrite the frame held by a reference. -/
def Store.setF (s : Store) (ref : Nat) (df : DataFrame) : Store :=
  s.set ref df

/-- Effectful model of `_coerce_numeric`: the column assignments update the
passed object in place; `return df` returns the same reference. -/
def coerce_numeric_impl (s : Store) (ref : Nat) (columns : List String) : Store × Nat :=
  (s.setF ref (_coerce_numeric (s.getF ref) columns), ref)

/-- Effectful model of `_coerce_dates`: in-place column updates, same
reference returned. -/
def coerce_dates_impl (s : Store) (ref : Nat) (columns : List String) : Store × Nat :=
  (s.setF ref (_coerce_dates (s.getF ref) columns), ref)

/-- Effectful model of `_filter_latest_versions`: the `Versao` assignment
updates the passed object in place, while `dropna`, `sort_values` and
`drop_duplicates` build fresh frames; the returned reference is freshly
allocated. -/
def filter_latest_versions_impl (s : Store) (ref : Nat) : Store × Nat :=
  let df := s.getF ref
  let s1 := s.setF ref (coerceVersaoDf df)
  (s1 ++ [_filter_latest_versions df], s1.length)

/-! ### Lemmas about the deduplication pass -/

lemma dedupFirst_not_seen :
    ∀ (l : List Row) (seen : List (Option Value × Option Value)) (r : Row),
      r ∈ dedupFirst l seen → rkey r ∉ seen := by
  intro l
  induction l with
  | nil => intro seen r h; simp [dedupFirst] at h
  | cons a rest ih =>
    intro seen r h
    by_cases ha : rkey a ∈ seen
    · rw [dedupFirst, if_pos ha] at h
      exact ih seen r h
    · rw [dedupFirst, if_neg ha] at h
      rcases List.mem_cons.mp h with h | h
      · exact h ▸ ha
      · have := ih (rkey a :: seen) r h
        exact fun hs => this (List.mem_cons_of_mem _ hs)

lemma dedupFirst_nodup :
    ∀ (l : List Row) (seen : List (Option Value × Option Value)),
      ((dedupFirst l seen).map rkey).Nodup := by
  intro l
  induction l with
  | nil => intro seen; simp [dedupFirst]
  | cons a rest ih =>
    intro seen
    by_cases ha : rkey a ∈ seen
    · rw [dedupFirst, if_pos ha]; exact ih seen
    · rw [dedupFirst, if_neg ha]
      refine List.Nodup.cons ?_ (ih (rkey a :: seen))
      intro hmem
      rcases List.mem_map.mp hmem with ⟨r, hr, hkey⟩
      have := dedupFirst_not_seen rest (rkey a :: seen) r hr
      exact this (hkey ▸ List.mem_cons_self _ _)

lemma dedupFirst_split :
    ∀ (l : List Row) (seen : List (Option Value × Option Value)) (r : Row),
      r ∈ dedupFirst l seen →
      ∃ l₁ l₂, l = l₁ ++ r :: l₂ ∧ ∀ x ∈ l₁, rkey x ≠ rkey r := by
  intro l
  induction l with
  | nil => intro seen r h; simp [dedupFirst] at h
  | cons a rest ih =>
    intro seen r h
    by_cases ha : rkey a ∈ seen
    · rw [dedupFirst, if_pos ha] at h
      rcases ih seen r h with ⟨l₁, l₂, heq, hdiff⟩
      refine ⟨a :: l₁, l₂, by rw [heq]; rfl, ?_⟩
      intro x hx
      rcases List.mem_cons.mp hx with hx | hx
      · subst hx
        intro hkey
        exact (dedupFirst_not_seen rest seen r h) (hkey ▸ ha)
      · exact hdiff x hx
    · rw [dedupFirst, if_neg ha] at h
      rcases List.mem_cons.mp h with h | h
      · exact ⟨[], rest, by simp [h], by intro x hx; simp at hx⟩
      · rcases ih (rkey a :: seen) r h with ⟨l₁, l₂, heq, hdiff⟩
        have hne : rkey r ≠ rkey a := by
          intro hkey
          exact (dedupFirst_not_seen rest (rkey a :: seen) r h)
            (hkey ▸ List.mem_cons_self _ _)
        refine ⟨a :: l₁, l₂, by rw [heq]; rfl, ?_⟩
        intro x hx
        rcases List.mem_cons.mp hx with hx | hx
        · subst hx
          exact fun hkey => hne hkey.symm
        · exact hdiff x hx

/-- Reflexivity of the version ordering. -/
lemma verGE_refl (r : Row) : verGE r r :=
  (total_of verGE r r).elim id id

/-- Rows kept by the resolver are maximal for the version ordering among
the eligible rows sharing their key. -/
lemma resolver_kept_ge {df : DataFrame} {r r' : Row}
    (hr : r ∈ (_filter_latest_versions df).rows)
    (hr' : r' ∈ eligibleRows df) (hkey : rkey r' = rkey r) : verGE r r' := by
  have hr2 : r ∈ dedupFirst (sortedRows df) [] := hr
  rcases dedupFirst_split _ _ _ hr2 with ⟨l₁, l₂, heq, hdiff⟩
  have hmem : r' ∈ sortedRows df := by
    unfold sortedRows
    exact (List.mem_insertionSort verGE).mpr hr'
  have hsorted : List.Sorted verGE (sortedRows df) :=
    List.sorted_insertionSort verGE (eligibleRows df)
  rw [heq] at hmem hsorted
  rcases List.mem_append.mp hmem with h1 | h2
  · exact absurd hkey (hdiff r' h1)
  · rcases List.mem_cons.mp h2 with h2 | h2
    · exact h2 ▸ verGE_refl r
    · have htail : List.Sorted verGE (r :: l₂) :=
        List.Pairwise.sublist (List.sublist_append_right l₁ (r :: l₂)) hsorted
      exact List.rel_of_sorted_cons htail r' h2

/-! ### Claim C1 -/

/-- C1: for every input table, after version resolution the output contains
no two rows sharing the same `(CNPJ_Fundo_Classe, Data_Referencia)` pair:
the row set produced by `_filter_latest_versions` has pairwise distinct
deduplication keys. -/
theorem claim_C1_resolver_unique_keys (df : DataFrame) :
    (((_filter_latest_versions df).rows).map rkey).Nodup :=
  dedupFirst_nodup (sortedRows df) []

/-! ### Claim C4 -/

/-- C4: a row kept by the version resolver carries a version at least as
high as every eligible input row sharing its key, in the ordering that puts
every numeric version above an absent or non-numeric one. In particular a
row with a numeric version is always preferred over a same-key row whose
version is absent or non-numeric, and with versions 1, 3 and absent the
version-3 row is kept. -/
theorem claim_C4_latest_version_wins (df : DataFrame) (r r' : Row)
    (hr : r ∈ (_filter_latest_versions df).rows)
    (hr' : r' ∈ eligibleRows df) (hkey : rkey r' = rkey r) :
    verGE r r' ∧ (verKey r' ≠ none → verKey r ≠ none) := by
  have hge := resolver_kept_ge hr hr' hkey
  refine ⟨hge, ?_⟩
  intro hv' hv
  unfold verGE verGEb at hge
  rcases hv2 : verKey r' with _ | x
  · exact hv' hv2
  · rw [hv, hv2] at hge
    simp at hge

/-- Input frame of the C4 witness: three same-key rows with versions
`"1"`, `"3"` and absent (versions arrive as raw strings, as in the
pipeline, where `Versao` is not among the numeric-coerced columns). -/
def dfW4 : DataFrame :=
  ⟨["CNPJ_Fundo_Classe", "Data_Referencia", "Versao", "Patrimonio_Liquido"],
   [[("CNPJ_Fundo_Classe", Value.str "11.111/0001-11"), ("Data_Referencia", Value.date 20240131),
     ("Versao", Value.str "1"), ("Patrimonio_Liquido", Value.num 5)],
    [("CNPJ_Fundo_Classe", Value.str "11.111/0001-11"), ("Data_Referencia", Value.date 20240131),
     ("Versao", Value.str "3"), ("Patrimonio_Liquido", Value.num 7)],
    [("CNPJ_Fundo_Classe", Value.str "11.111/0001-11"), ("Data_Referencia", Value.date 20240131),
     ("Versao", Value.na), ("Patrimonio_Liquido", Value.num 9)]]⟩

/-- Version-3 row of `dfW4` after coercion (the row the resolver keeps). -/
def rowW4v3 : Row :=
  [("CNPJ_Fundo_Classe", Value.str "11.111/0001-11"), ("Data_Referencia", Value.date 20240131),
   ("Versao", Value.num 3), ("Patrimonio_Liquido", Value.num 7)]

/-- Version-1 row of `dfW4` after coercion. -/
def rowW4v1 : Row :=
  [("CNPJ_Fundo_Classe", Value.str "11.111/0001-11"), ("Data_Referencia", Value.date 20240131),
   ("Versao", Value.num 1), ("Patrimonio_Liquido", Value.num 5)]

/-- Witness for C4: on the concrete frame with versions 1, 3 and absent for
one key, the resolver's output is exactly the version-3 row, and the claim
theorem applies to it against the version-1 row. -/
theorem claim_C4_witness :
    (_filter_latest_versions dfW4).rows = [rowW4v3] ∧
      (verGE rowW4v3 rowW4v1 ∧ (verKey rowW4v1 ≠ none → verKey rowW4v3 ≠ none)) :=
  ⟨by decide,
   claim_C4_latest_version_wins dfW4 rowW4v3 rowW4v1 (by decide) (by decide) (by decide)⟩

/-! ### Claim C2 -/

/-- Resolved row of the C2 scenario: first dividend candidate column holds
the value 0, second holds 0.5, ticker registered. -/
def rowW2 : Row :=
  [("CNPJ_Fundo_Classe", Value.str "22.222/0001-22"), ("Data_Referencia", Value.date 20240131),
   ("Versao", Value.num 1), ("Rendimento_Distribuido", Value.num 0),
   ("Rendimento_Cota", Value.num (mkRat 1 2))]

/-- Frame holding exactly the C2 scenario row. -/
def dfW2 : DataFrame :=
  ⟨["CNPJ_Fundo_Classe", "Data_Referencia", "Versao", "Rendimento_Distribuido",
    "Rendimento_Cota"], [rowW2]⟩

/-- Registry mapping of the C2 scenario. -/
def tmW2 : List (String × String) := [("22.222/0001-22", "YFIX11")]

/-- Counterexample to C2: on a resolved row with `Rendimento_Distribuido`
equal to 0 and `Rendimento_Cota` equal to 0.5, the dividend derivation
emits no record at all — in particular no record with dividend value 0.5.
The precedence lookup returns the zero of the first candidate (a present
zero is not skipped), and the zero then fails the nonzero filter. -/
theorem claim_C2_counterexample :
    cellOf rowW2 "Rendimento_Distribuido" = some (Value.num 0) ∧
      cellOf rowW2 "Rendimento_Cota" = some (Value.num (mkRat 1 2)) ∧
      List.lookup "22.222/0001-22" tmW2 = some "YFIX11" ∧
      _get_first_value rowW2 dividend_columns = some 0 ∧
      _build_dividend_history dfW2 tmW2 = [] := by
  refine ⟨by decide, by decide, by decide, by decide, by decide⟩

/-- C2 as amended: the precedence lookup skips a candidate only when it is
missing or absent, not when it is zero. A row whose first dividend
candidate holds a present zero yields `some 0` from the lookup and is then
dropped entirely by the dividend derivation; a row whose first candidate is
absent falls through to the remaining candidates. -/
theorem claim_C2_zero_not_skipped (tm : List (String × String)) (r r' : Row)
    (h0 : cellOf r "Rendimento_Distribuido" = some (Value.num 0))
    (hna : cellOf r' "Rendimento_Distribuido" = some Value.na) :
    (_get_first_value r dividend_columns = some 0 ∧ rowToDividendRecord tm r = none)
      ∧ _get_first_value r' dividend_columns =
          _get_first_value r' ["Rendimento_Cota", "Dividendos_Distribuidos"] := by
  have hlook : _get_first_value r dividend_columns = some 0 := by
    unfold dividend_columns _get_first_value
    rw [h0]
    rfl
  refine ⟨⟨hlook, ?_⟩, ?_⟩
  · unfold rowToDividendRecord
    cases hft : tickerFalsy (tickerOf tm r)
    · simp only [hft, Bool.false_eq_true, if_false, hlook]
      simp
    · simp [hft]
  · unfold dividend_columns _get_first_value
    rw [hna]
    rfl

/-- Variant row for the C2 witness: first dividend candidate absent, second
holds 0.5. -/
def rowW2na : Row :=
  [("CNPJ_Fundo_Classe", Value.str "22.222/0001-22"), ("Data_Referencia", Value.date 20240131),
   ("Versao", Value.num 1), ("Rendimento_Distribuido", Value.na),
   ("Rendimento_Cota", Value.num (mkRat 1 2))]

/-- Witness for the amended C2: on the concrete scenario rows, a present
zero first candidate produces `some 0` and no dividend record, while an
absent first candidate falls through and the lookup yields 0.5. -/
theorem claim_C2_zero_not_skipped_witness :
    ((_get_first_value rowW2 dividend_columns = some 0 ∧
        rowToDividendRecord tmW2 rowW2 = none)
      ∧ _get_first_value rowW2na dividend_columns =
          _get_first_value rowW2na ["Rendimento_Cota", "Dividendos_Distribuidos"])
      ∧ _get_first_value rowW2na dividend_columns = some (mkRat 1 2) :=
  ⟨claim_C2_zero_not_skipped tmW2 rowW2 rowW2na (by decide) (by decide), by decide⟩

/-! ### Claim C5 -/

/-- C5: in every snapshot payload, the unit book value
(`valor_patrimonial_cota`) equals `Patrimonio_Liquido / Cotas_Emitidas`
when both operands are present and nonzero, and is absent when either
operand is absent or zero (a present zero is treated like absence). -/
theorem claim_C5_unit_book_value (tm : List (String × String)) (r : Row)
    (p : CurrentPayload) (hp : rowToCurrentPayload tm r = some p) :
    (∀ x y, _get_first_value r ["Patrimonio_Liquido"] = some x →
        _get_first_value r ["Cotas_Emitidas"] = some y → x ≠ 0 → y ≠ 0 →
        p.valor_patrimonial_cota = some (x / y))
      ∧ ((_get_first_value r ["Patrimonio_Liquido"] = none ∨
            _get_first_value r ["Patrimonio_Liquido"] = some 0 ∨
            _get_first_value r ["Cotas_Emitidas"] = none ∨
            _get_first_value r ["Cotas_Emitidas"] = some 0) →
          p.valor_patrimonial_cota = none) := by
  have hvpa : p.valor_patrimonial_cota =
      pyDivIf (_get_first_value r ["Patrimonio_Liquido"])
        (_get_first_value r ["Cotas_Emitidas"]) := by
    simp only [rowToCurrentPayload] at hp
    cases hft : tickerFalsy (tickerOf tm r)
    · rw [hft] at hp
      simp only [Bool.false_eq_true, if_false] at hp
      rw [← Option.some.inj hp]
    · rw [hft] at hp
      simp at hp
  constructor
  · intro x y hx hy hx0 hy0
    rw [hvpa, hx, hy]
    exact if_pos ⟨hx0, hy0⟩
  · intro habs
    rw [hvpa]
    rcases habs with h | h | h | h
    · rw [h]
      cases _get_first_value r ["Cotas_Emitidas"] <;> rfl
    · rw [h]
      cases _get_first_value r ["Cotas_Emitidas"] with
      | none => rfl
      | some y => unfold pyDivIf; simp
    · rw [h]
      cases _get_first_value r ["Patrimonio_Liquido"] <;> rfl
    · rw [h]
      cases _get_first_value r ["Patrimonio_Liquido"] with
      | none => rfl
      | some x => unfold pyDivIf; simp

/-- Resolved row of the C5 witness scenario. -/
def rowW5 : Row :=
  [("CNPJ_Fundo_Classe", Value.str "33.333/0001-33"), ("Data_Referencia", Value.date 20240131),
   ("Versao", Value.num 1), ("Patrimonio_Liquido", Value.num 1000000),
   ("Cotas_Emitidas", Value.num 100000), ("Numero_Cotistas", Value.num 42)]

/-- Registry mapping of the C5 witness scenario. -/
def tmW5 : List (String × String) := [("33.333/0001-33", "ZFIX11")]

/-- Payload produced for `rowW5`. -/
def payloadW5 : CurrentPayload :=
  { ticker := "ZFIX11", asset_class := "fii", patrimonio_liquido := some 1000000,
    valor_patrimonial_cota := some 10, num_cotistas := some 42 }

/-- Witness for C5: with `Patrimonio_Liquido` 1000000 and `Cotas_Emitidas`
100000 the payload's unit book value is `1000000 / 100000`, which is
exactly 10. -/
theorem claim_C5_witness :
    payloadW5.valor_patrimonial_cota = some ((1000000 : ℚ) / 100000) ∧
      ((1000000 : ℚ) / 100000) = 10 :=
  ⟨(claim_C5_unit_book_value tmW5 rowW5 payloadW5 (by decide)).1 1000000 100000
      (by decide) (by decide) (by decide) (by decide),
   by decide⟩

/-! ### Claim C10 -/

/-- Ticker lookups resolve through the registry mapping. -/
lemma tickerOf_spec {tm : List (String × String)} {r : Row} {t : String}
    (h : tickerOf tm r = some t) : ∃ c, List.lookup c tm = some t := by
  unfold tickerOf at h
  rcases hc : cellOf r "CNPJ_Fundo_Classe" with _ | v
  · rw [hc] at h
    exact Option.noConfusion h
  · rw [hc] at h
    cases v with
    | str c => exact ⟨c, h⟩
    | num q => exact Option.noConfusion h
    | date d => exact Option.noConfusion h
    | na => exact Option.noConfusion h

/-- Payloads of the snapshot builder carry a nonempty registry ticker. -/
lemma rowToCurrentPayload_ticker {tm : List (String × String)} {r : Row}
    {p : CurrentPayload} (h : rowToCurrentPayload tm r = some p) :
    p.ticker ≠ "" ∧ ∃ c, List.lookup c tm = some p.ticker := by
  simp only [rowToCurrentPayload] at h
  cases hft : tickerFalsy (tickerOf tm r)
  · rw [hft] at h
    simp only [Bool.false_eq_true, if_false] at h
    have hp := Option.some.inj h
    rcases ht : tickerOf tm r with _ | t
    · rw [ht] at hft
      unfold tickerFalsy at hft
      simp at hft
    · have hne : t ≠ "" := by
        unfold tickerFalsy at hft
        rw [ht] at hft
        simpa using hft
      have htick : p.ticker = t := by
        rw [← hp]
        simp [ht]
      rcases tickerOf_spec ht with ⟨c, hc⟩
      exact ⟨htick ▸ hne, ⟨c, htick ▸ hc⟩⟩
  · rw [hft] at h
    simp at h

/-- Records of the valuation builder carry a nonempty registry ticker. -/
lemma rowToVpRecord_ticker {tm : List (String × String)} {r : Row}
    {v : VpRecord} (h : rowToVpRecord tm r = some v) :
    v.ticker ≠ "" ∧ ∃ c, List.lookup c tm = some v.ticker := by
  simp only [rowToVpRecord] at h
  cases hft : tickerFalsy (tickerOf tm r)
  · rw [hft] at h
    simp only [Bool.false_eq_true, if_false] at h
    have hp := Option.some.inj h
    rcases ht : tickerOf tm r with _ | t
    · rw [ht] at hft
      unfold tickerFalsy at hft
      simp at hft
    · have hne : t ≠ "" := by
        unfold tickerFalsy at hft
        rw [ht] at hft
        simpa using hft
      have htick : v.ticker = t := by
        rw [← hp]
        simp [ht]
      rcases tickerOf_spec ht with ⟨c, hc⟩
      exact ⟨htick ▸ hne, ⟨c, htick ▸ hc⟩⟩
  · rw [hft] at h
    simp at h

/-- Records of the dividend builder carry a nonempty registry ticker. -/
lemma rowToDividendRecord_ticker {tm : List (String × String)} {r : Row}
    {d : DividendRecord} (h : rowToDividendRecord tm r = some d) :
    d.ticker ≠ "" ∧ ∃ c, List.lookup c tm = some d.ticker := by
  simp only [rowToDividendRecord] at h
  cases hft : tickerFalsy (tickerOf tm r)
  · rw [hft] at h
    simp only [Bool.false_eq_true, if_false] at h
    rcases hdv : _get_first_value r dividend_columns with _ | q
    · simp only [hdv] at h
      exact Option.noConfusion h
    · simp only [hdv] at h
      by_cases hq : q = 0
      · rw [if_pos hq] at h
        exact Option.noConfusion h
      · rw [if_neg hq] at h
        have hp := Option.some.inj h
        rcases ht : tickerOf tm r with _ | t
        · rw [ht] at hft
          unfold tickerFalsy at hft
          simp at hft
        · have hne : t ≠ "" := by
            unfold tickerFalsy at hft
            rw [ht] at hft
            simpa using hft
          have htick : d.ticker = t := by
            rw [← hp]
            simp [ht]
          rcases tickerOf_spec ht with ⟨c, hc⟩
          exact ⟨htick ▸ hne, ⟨c, htick ▸ hc⟩⟩
  · rw [hft] at h
    simp at h

/-- C10: every record emitted by any of the three derivations carries a
nonempty ticker drawn from the registry mapping, and a row whose entity has
no registry entry, or a falsy (empty) mapped ticker, is silently excluded
by all three derivations. -/
theorem claim_C10_ticker_filter (df : DataFrame) (tm : List (String × String)) :
    (∀ p ∈ _build_current_payloads df tm,
        p.ticker ≠ "" ∧ ∃ c, List.lookup c tm = some p.ticker)
      ∧ (∀ v ∈ _build_vp_history df tm,
          v.ticker ≠ "" ∧ ∃ c, List.lookup c tm = some v.ticker)
      ∧ (∀ d ∈ _build_dividend_history df tm,
          d.ticker ≠ "" ∧ ∃ c, List.lookup c tm = some d.ticker)
      ∧ (∀ r, tickerFalsy (tickerOf tm r) = true →
          rowToCurrentPayload tm r = none ∧ rowToVpRecord tm r = none ∧
            rowToDividendRecord tm r = none) := by
  refine ⟨?_, ?_, ?_, ?_⟩
  · intro p hp
    rcases List.mem_filterMap.mp hp with ⟨r, _, hr⟩
    exact rowToCurrentPayload_ticker hr
  · intro v hv
    rcases List.mem_filterMap.mp hv with ⟨r, _, hr⟩
    exact rowToVpRecord_ticker hr
  · intro d hd
    rcases List.mem_filterMap.mp hd with ⟨r, _, hr⟩
    exact rowToDividendRecord_ticker hr
  · intro r hft
    refine ⟨?_, ?_, ?_⟩
    · simp [rowToCurrentPayload, hft]
    · simp [rowToVpRecord, hft]
    · simp [rowToDividendRecord, hft]

/-- Frame of the C10 witness: one registered row, one unregistered row and
one row whose mapped ticker is empty. -/
def dfW10 : DataFrame :=
  ⟨["CNPJ_Fundo_Classe", "Data_Referencia", "Versao", "Patrimonio_Liquido"],
   [[("CNPJ_Fundo_Classe", Value.str "44.444/0001-44"), ("Data_Referencia", Value.date 20240131),
     ("Versao", Value.num 1), ("Patrimonio_Liquido", Value.num 8)],
    [("CNPJ_Fundo_Classe", Value.str "55.555/0001-55"), ("Data_Referencia", Value.date 20240131),
     ("Versao", Value.num 1), ("Patrimonio_Liquido", Value.num 9)],
    [("CNPJ_Fundo_Classe", Value.str "66.666/0001-66"), ("Data_Referencia", Value.date 20240131),
     ("Versao", Value.num 1), ("Patrimonio_Liquido", Value.num 4)]]⟩

/-- Registry of the C10 witness: the second entity is missing and the third
maps to an empty ticker. -/
def tmW10 : List (String × String) := [("44.444/0001-44", "WFIX11"), ("66.666/0001-66", "")]

/-- First record of the C10 witness valuation batch. -/
def vpW10 : VpRecord :=
  { ticker := "WFIX11", data_referencia := some 20240131, patrimonio_liquido := some 8,
    cotas_emitidas := none, valor_patrimonial_cota := none, p_vp := none }

/-- Witness for C10: on the concrete frame, the valuation batch contains
exactly the registered row's record, its ticker resolves through the
registry, and the unregistered row is excluded by every derivation. -/
theorem claim_C10_witness :
    _build_vp_history dfW10 tmW10 = [vpW10] ∧
      (vpW10.ticker ≠ "" ∧ ∃ c, List.lookup c tmW10 = some vpW10.ticker) ∧
      (rowToCurrentPayload tmW10 [("CNPJ_Fundo_Classe", Value.str "55.555/0001-55")] = none ∧
        rowToVpRecord tmW10 [("CNPJ_Fundo_Classe", Value.str "55.555/0001-55")] = none ∧
        rowToDividendRecord tmW10 [("CNPJ_Fundo_Classe", Value.str "55.555/0001-55")] = none) :=
  ⟨by decide,
   (claim_C10_ticker_filter dfW10 tmW10).2.1 vpW10 (by decide),
   (claim_C10_ticker_filter dfW10 tmW10).2.2.2
     [("CNPJ_Fundo_Classe", Value.str "55.555/0001-55")] (by decide)⟩

/-! ### Claim C7 -/

/-- Date cells come from actual date values. -/
lemma dateCell_eq {r : Row} {d : Int} (h : dateCell r = some d) :
    cellOf r "Data_Referencia" = some (Value.date d) := by
  unfold dateCell at h
  rcases hc : cellOf r "Data_Referencia" with _ | v
  · rw [hc] at h
    exact Option.noConfusion h
  · rw [hc] at h
    cases v <;> simp_all

/-- Rows passing the latest-period filter belong to the frame and carry
their group's maximum date. -/
lemma mem_latestRows {df : DataFrame} {r : Row} (h : r ∈ latestRows df) :
    r ∈ df.rows ∧ ∃ d, dateCell r = some d ∧
      maxDateFor df.rows (cellOf r "CNPJ_Fundo_Classe") = some d := by
  unfold latestRows at h
  have hmem := List.mem_filter.mp h
  refine ⟨hmem.1, ?_⟩
  have hcond := hmem.2
  rcases hd : dateCell r with _ | d
  · simp only [hd] at hcond
    simp at hcond
  · simp only [hd, Bool.and_eq_true] at hcond
    exact ⟨d, rfl, of_decide_eq_true hcond.2⟩

/-- When a group has no dated row, its maximum date is absent. -/
lemma maxDateFor_none :
    ∀ (rows : List Row) (c : Option Value), maxDateFor rows c = none →
      ∀ r ∈ rows, cellOf r "CNPJ_Fundo_Classe" = c → dateCell r = none := by
  intro rows
  induction rows with
  | nil => intro c _ r hr; simp at hr
  | cons a rest ih =>
    intro c hm r hr hc
    simp only [maxDateFor] at hm
    by_cases hac : cellOf a "CNPJ_Fundo_Classe" = c
    · rw [if_pos hac] at hm
      rcases hda : dateCell a with _ | d' <;>
        rcases hmr : maxDateFor rest c with _ | m2 <;>
          simp only [hda, hmr] at hm
      · rcases List.mem_cons.mp hr with hr | hr
        · exact hr ▸ hda
        · exact ih c hmr r hr hc
      · exact Option.noConfusion hm
      · exact Option.noConfusion hm
      · exact Option.noConfusion hm
    · rw [if_neg hac] at hm
      rcases List.mem_cons.mp hr with hr | hr
      · exact absurd (hr ▸ hc) hac
      · exact ih c hm r hr hc

/-- The group maximum date bounds every dated row of the group. -/
lemma maxDateFor_isMax :
    ∀ (rows : List Row) (c : Option Value) (m : Int), maxDateFor rows c = some m →
      ∀ r ∈ rows, cellOf r "CNPJ_Fundo_Classe" = c →
        ∀ d, dateCell r = some d → d ≤ m := by
  intro rows
  induction rows with
  | nil => intro c m _ r hr; simp at hr
  | cons a rest ih =>
    intro c m hm r hr hc d hd
    simp only [maxDateFor] at hm
    by_cases hac : cellOf a "CNPJ_Fundo_Classe" = c
    · rw [if_pos hac] at hm
      rcases hda : dateCell a with _ | d' <;>
        rcases hmr : maxDateFor rest c with _ | m2 <;>
          simp only [hda, hmr] at hm
      · exact Option.noConfusion hm
      · rcases List.mem_cons.mp hr with hr | hr
        · rw [hr, hda] at hd
          exact Option.noConfusion hd
        · exact (Option.some.inj hm) ▸ ih c m2 hmr r hr hc d hd
      · rcases List.mem_cons.mp hr with hr | hr
        · rw [hr, hda] at hd
          rw [← Option.some.inj hm, ← Option.some.inj hd]
        · rw [maxDateFor_none rest c hmr r hr hc] at hd
          exact Option.noConfusion hd
      · rcases List.mem_cons.mp hr with hr | hr
        · rw [hr, hda] at hd
          rw [← Option.some.inj hm, ← Option.some.inj hd]
          exact le_max_left d' m2
        · rw [← Option.some.inj hm]
          exact le_trans (ih c m2 hmr r hr hc d hd) (le_max_right d' m2)
    · rw [if_neg hac] at hm
      rcases List.mem_cons.mp hr with hr | hr
      · exact absurd (hr ▸ hc) hac
      · exact ih c m hm r hr hc d hd

/-- On frames with pairwise distinct deduplication keys, the latest-period
rows have pairwise distinct entity cells. -/
lemma latestRows_nodup_cnpj {df : DataFrame}
    (hnd : (df.rows.map rkey).Nodup) :
    ((latestRows df).map (fun r => cellOf r "CNPJ_Fundo_Classe")).Nodup := by
  have hsub : List.Sublist (latestRows df) df.rows := List.filter_sublist _
  have hnd2 : ((latestRows df).map rkey).Nodup :=
    List.Nodup.sublist (List.Sublist.map rkey hsub) hnd
  have hcongr : (latestRows df).map rkey =
      (latestRows df).map
        ((fun c => (c, (maxDateFor df.rows c).map Value.date)) ∘
          (fun r => cellOf r "CNPJ_Fundo_Classe")) := by
    apply List.map_congr_left
    intro r hr
    rcases (mem_latestRows hr).2 with ⟨d, hd, hmax⟩
    unfold rkey
    simp only [Function.comp_apply, hmax, Option.map_some', dateCell_eq hd]
  rw [hcongr, ← List.map_map] at hnd2
  exact hnd2.of_map _

/-- C7: over the resolver's output, the snapshot derivation considers only
rows whose reference period equals the maximum reference period of their
entity (and such a maximum exists for them), at most one row per entity
survives that filter, and the snapshot batch is exactly the per-row payload
mapping over those rows. -/
theorem claim_C7_snapshot_latest_period (df0 : DataFrame) (tm : List (String × String)) :
    (((latestRows (_filter_latest_versions df0)).map
        (fun r => cellOf r "CNPJ_Fundo_Classe")).Nodup)
      ∧ (∀ r ∈ latestRows (_filter_latest_versions df0),
          r ∈ (_filter_latest_versions df0).rows ∧
          ∃ d, dateCell r = some d ∧
            maxDateFor (_filter_latest_versions df0).rows
              (cellOf r "CNPJ_Fundo_Classe") = some d ∧
            ∀ r' ∈ (_filter_latest_versions df0).rows,
              cellOf r' "CNPJ_Fundo_Classe" = cellOf r "CNPJ_Fundo_Classe" →
              ∀ d', dateCell r' = some d' → d' ≤ d)
      ∧ _build_current_payloads (_filter_latest_versions df0) tm =
          (latestRows (_filter_latest_versions df0)).filterMap (rowToCurrentPayload tm) := by
  refine ⟨latestRows_nodup_cnpj (dedupFirst_nodup (sortedRows df0) []), ?_, rfl⟩
  intro r hr
  rcases mem_latestRows hr with ⟨hrow, d, hd, hmax⟩
  refine ⟨hrow, d, hd, hmax, ?_⟩
  intro r' hr' hc d' hd'
  exact maxDateFor_isMax _ _ _ hmax r' hr' hc d' hd'

/-- Input frame of the C7 witness: one entity with two periods, a second
entity with one period. -/
def dfW7 : DataFrame :=
  ⟨["CNPJ_Fundo_Classe", "Data_Referencia", "Versao", "Patrimonio_Liquido"],
   [[("CNPJ_Fundo_Classe", Value.str "77.777/0001-77"), ("Data_Referencia", Value.date 20240131),
     ("Versao", Value.num 1), ("Patrimonio_Liquido", Value.num 5)],
    [("CNPJ_Fundo_Classe", Value.str "77.777/0001-77"), ("Data_Referencia", Value.date 20240229),
     ("Versao", Value.num 1), ("Patrimonio_Liquido", Value.num 6)],
    [("CNPJ_Fundo_Classe", Value.str "88.888/0001-88"), ("Data_Referencia", Value.date 20240131),
     ("Versao", Value.num 1), ("Patrimonio_Liquido", Value.num 7)]]⟩

/-- Latest-period row of the first C7 witness entity. -/
def rowW7 : Row :=
  [("CNPJ_Fundo_Classe", Value.str "77.777/0001-77"), ("Data_Referencia", Value.date 20240229),
   ("Versao", Value.num 1), ("Patrimonio_Liquido", Value.num 6)]

/-- Witness for C7: on the concrete frame, the snapshot filter keeps the
first entity's most recent row, whose date is the entity's maximum. -/
theorem claim_C7_witness :
    rowW7 ∈ (_filter_latest_versions dfW7).rows ∧
      ∃ d, dateCell rowW7 = some d ∧
        maxDateFor (_filter_latest_versions dfW7).rows
          (cellOf rowW7 "CNPJ_Fundo_Classe") = some d ∧
        ∀ r' ∈ (_filter_latest_versions dfW7).rows,
          cellOf r' "CNPJ_Fundo_Classe" = cellOf rowW7 "CNPJ_Fundo_Classe" →
          ∀ d', dateCell r' = some d' → d' ≤ d :=
  (claim_C7_snapshot_latest_period dfW7 []).2.1 rowW7 (by decide)

/-! ### Claim C8 -/

/-- Numeric coercion never changes the column list. -/
lemma coerce_numeric_cols :
    ∀ (columns : List String) (df : DataFrame),
      (_coerce_numeric df columns).cols = df.cols := by
  intro columns
  induction columns with
  | nil => intro df; rfl
  | cons c rest ih =>
    intro df
    show (_coerce_numeric
        (if df.cols.contains c then mapColumn df c parseNumericCell else df) rest).cols
      = df.cols
    rw [ih]
    by_cases h : df.cols.contains c
    · rw [if_pos h]
      rfl
    · rw [if_neg h]

/-- Date coercion never changes the column list. -/
lemma coerce_dates_cols :
    ∀ (columns : List String) (df : DataFrame),
      (_coerce_dates df columns).cols = df.cols := by
  intro columns
  induction columns with
  | nil => intro df; rfl
  | cons c rest ih =>
    intro df
    show (_coerce_dates
        (if df.cols.contains c then mapColumn df c parseDateCell else df) rest).cols
      = df.cols
    rw [ih]
    by_cases h : df.cols.contains c
    · rw [if_pos h]
      rfl
    · rw [if_neg h]

/-- C8: type coercion is total and non-erroring. Coercing one column
rewrites exactly the cells of that column when it exists in the frame and
is the identity when it does not (missing configured columns are silently
skipped); every coerced cell is either the explicit absence marker or a
properly typed value, never anything else; and a string cell that fails to
parse becomes the absence marker rather than an error value. The column
list is never altered. -/
theorem claim_C8_coercion_total (df : DataFrame) (c : String) (columns : List String) :
    (_coerce_numeric df columns).cols = df.cols
      ∧ (_coerce_dates df columns).cols = df.cols
      ∧ _coerce_numeric df [c] =
          (if df.cols.contains c then mapColumn df c parseNumericCell else df)
      ∧ _coerce_dates df [c] =
          (if df.cols.contains c then mapColumn df c parseDateCell else df)
      ∧ (∀ v, parseNumericCell v = Value.na ∨ ∃ q, parseNumericCell v = Value.num q)
      ∧ (∀ v, parseDateCell v = Value.na ∨ ∃ d, parseDateCell v = Value.date d)
      ∧ (∀ s, parseNumericCell (Value.str s) = (parseRat s).elim Value.na Value.num)
      ∧ (∀ s, parseDateCell (Value.str s) = (parseDate s).elim Value.na Value.date) := by
  refine ⟨coerce_numeric_cols columns df, coerce_dates_cols columns df, rfl, rfl, ?_, ?_, fun s => rfl, fun s => rfl⟩
  · intro v
    cases v with
    | num q => exact Or.inr ⟨q, rfl⟩
    | str s =>
      rcases hp : parseRat s with _ | q
      · exact Or.inl (by simp [parseNumericCell, hp])
      · exact Or.inr ⟨q, by simp [parseNumericCell, hp]⟩
    | date d => exact Or.inl rfl
    | na => exact Or.inl rfl
  · intro v
    cases v with
    | date d => exact Or.inr ⟨d, rfl⟩
    | str s =>
      rcases hp : parseDate s with _ | d
      · exact Or.inl (by simp [parseDateCell, hp])
      · exact Or.inr ⟨d, by simp [parseDateCell, hp]⟩
    | num q => exact Or.inl rfl
    | na => exact Or.inl rfl

/-! ### Claim C9 -/

/-- Frame of the C9 counterexample, holding one raw numeric string. -/
def dfW9 : DataFrame :=
  ⟨["CNPJ_Fundo_Classe", "Patrimonio_Liquido"],
   [[("CNPJ_Fundo_Classe", Value.str "99.999/0001-99"),
     ("Patrimonio_Liquido", Value.str "7")]]⟩

/-- Counterexample to C9: numeric coercion does not leave the passed table
object unchanged, and it does not return a freshly constructed object — the
object held by the caller's reference is updated in place and that same
reference is returned. -/
theorem claim_C9_counterexample :
    Store.getF (coerce_numeric_impl [dfW9] 0 ["Patrimonio_Liquido"]).1 0 ≠ dfW9
      ∧ (coerce_numeric_impl [dfW9] 0 ["Patrimonio_Liquido"]).2 = 0 :=
  ⟨by decide, rfl⟩

/-- Reading another reference is unaffected by appending a fresh object. -/
lemma getF_append_left {s2 : Store} {x : DataFrame} {j : Nat} (h : j < s2.length) :
    Store.getF (s2 ++ [x]) j = Store.getF s2 j := by
  unfold Store.getF
  rw [List.getD_eq_getElem?_getD, List.getD_eq_getElem?_getD, List.getElem?_append_left h]

/-- Reading another reference is unaffected by an in-place update. -/
lemma getF_set_ne {s : Store} {i j : Nat} {x : DataFrame} (h : j ≠ i) :
    Store.getF (s.set i x) j = Store.getF s j := by
  unfold Store.getF
  rw [List.getD_eq_getElem?_getD, List.getD_eq_getElem?_getD,
    List.getElem?_set_ne (Ne.symm h)]

/-- Reading an updated reference yields the new value. -/
lemma getF_set_self {s : Store} {i : Nat} {x : DataFrame} (h : i < s.length) :
    Store.getF (s.set i x) i = x := by
  unfold Store.getF
  rw [List.getD_eq_getElem?_getD, List.getElem?_set_self h]
  rfl

/-- Reading a freshly appended reference yields the appended value. -/
lemma getF_concat_self {s : Store} {x : DataFrame} :
    Store.getF (s ++ [x]) s.length = x := by
  unfold Store.getF
  rw [List.getD_eq_getElem?_getD, List.getElem?_concat_length]
  rfl

/-- C9 as amended: the coercion stages update the passed object in place
and return its own reference; the version resolver overwrites the `Versao`
column of its argument in place, while its returned table is a freshly
allocated object whose value is a pure function of the original input. No
stage touches any other object in the store. -/
theorem claim_C9_inplace_mutation (s : Store) (ref : Nat) (columns : List String)
    (href : ref < s.length) :
    coerce_numeric_impl s ref columns
        = (s.setF ref (_coerce_numeric (s.getF ref) columns), ref)
      ∧ coerce_dates_impl s ref columns
          = (s.setF ref (_coerce_dates (s.getF ref) columns), ref)
      ∧ (∀ j, j ≠ ref →
          Store.getF (coerce_numeric_impl s ref columns).1 j = Store.getF s j ∧
            Store.getF (coerce_dates_impl s ref columns).1 j = Store.getF s j ∧
            (j < s.length →
              Store.getF (filter_latest_versions_impl s ref).1 j = Store.getF s j))
      ∧ Store.getF (filter_latest_versions_impl s ref).1 ref
          = coerceVersaoDf (s.getF ref)
      ∧ (filter_latest_versions_impl s ref).2 ≠ ref
      ∧ Store.getF (filter_latest_versions_impl s ref).1
            (filter_latest_versions_impl s ref).2
          = _filter_latest_versions (s.getF ref) := by
  refine ⟨rfl, rfl, ?_, ?_, ?_, ?_⟩
  · intro j hj
    refine ⟨getF_set_ne hj, getF_set_ne hj, ?_⟩
    intro hjlen
    have hlen2 : j < (s.set ref (coerceVersaoDf (Store.getF s ref))).length := by
      simpa using hjlen
    show Store.getF
        (s.set ref (coerceVersaoDf (Store.getF s ref)) ++
          [_filter_latest_versions (Store.getF s ref)]) j = Store.getF s j
    rw [getF_append_left hlen2, getF_set_ne hj]
  · have hlen2 : ref < (s.set ref (coerceVersaoDf (Store.getF s ref))).length := by
      simpa using href
    show Store.getF
        (s.set ref (coerceVersaoDf (Store.getF s ref)) ++
          [_filter_latest_versions (Store.getF s ref)]) ref
      = coerceVersaoDf (Store.getF s ref)
    rw [getF_append_left hlen2, getF_set_self href]
  · have hlen : (filter_latest_versions_impl s ref).2 = s.length := by
      simp [filter_latest_versions_impl, Store.setF]
    rw [hlen]
    exact Nat.ne_of_gt href
  · show Store.getF
        (s.set ref (coerceVersaoDf (Store.getF s ref)) ++
          [_filter_latest_versions (Store.getF s ref)])
        (s.set ref (coerceVersaoDf (Store.getF s ref))).length
      = _filter_latest_versions (Store.getF s ref)
    exact getF_concat_self

/-- Witness for the amended C9 at a concrete store: the passed object is
updated in place, the same reference is returned, and the resolver's output
lands at a fresh reference with the pure resolver value. -/
theorem claim_C9_inplace_mutation_witness :
    coerce_numeric_impl [dfW9] 0 ["Patrimonio_Liquido"]
        = (Store.setF [dfW9] 0
            (_coerce_numeric (Store.getF [dfW9] 0) ["Patrimonio_Liquido"]), 0)
      ∧ (filter_latest_versions_impl [dfW9] 0).2 ≠ 0
      ∧ Store.getF (filter_latest_versions_impl [dfW9] 0).1
            (filter_latest_versions_impl [dfW9] 0).2
          = _filter_latest_versions (Store.getF [dfW9] 0) := by
  have h := claim_C9_inplace_mutation [dfW9] 0 ["Patrimonio_Liquido"] (by decide)
  exact ⟨h.1, h.2.2.2.2.1, h.2.2.2.2.2⟩

/-! ### Claim C3 -/

/-- Association-list lookup over append: left bindings win. -/
lemma lookup_append (c : String) (r1 r2 : Row) :
    List.lookup c (r1 ++ r2) =
      match List.lookup c r1 with
      | some v => some v
      | none => List.lookup c r2 := by
  induction r1 with
  | nil => simp
  | cons p rest ih =>
    rcases p with ⟨k, v⟩
    rw [List.cons_append, List.lookup_cons, List.lookup_cons]
    cases h : (c == k) <;> simp only
    exact ih

/-- Lookup misses when no binding carries the label. -/
lemma lookup_eq_none (c : String) (r : Row) (h : ∀ p ∈ r, p.1 ≠ c) :
    List.lookup c r = none := by
  induction r with
  | nil => rfl
  | cons p rest ih =>
    rcases p with ⟨k, v⟩
    rw [List.lookup_cons]
    have hk : (c == k) = false := by
      rw [beq_eq_false_iff_ne]
      intro he
      exact h (k, v) (List.mem_cons_self _ _) he.symm
    rw [hk]
    exact ih (fun p hp => h p (List.mem_cons_of_mem _ hp))

/-- Rows whose labels all live in a column set miss any other label. -/
lemma cellOf_none_of_wf {r : Row} {S : List String} {c : String}
    (hw : ∀ p ∈ r, p.1 ∈ S) (hc : c ∉ S) : cellOf r c = none :=
  lookup_eq_none c r (fun p hp he => hc (he ▸ hw p hp))

/-- Appending another row's non-key cells never changes the key tuple. -/
lemma keyTuple_append_nonKey (keys : List String) (x y : Row) :
    keyTuple keys (x ++ nonKeyCells keys y) = keyTuple keys x := by
  unfold keyTuple
  apply List.map_congr_left
  intro k hk
  unfold cellOf
  rw [lookup_append]
  cases h : List.lookup k x <;> simp only [h]
  apply lookup_eq_none
  intro p hp he
  have hpmem := List.mem_filter.mp hp
  have hpc : keys.contains p.1 = true := List.elem_iff.mpr (he ▸ hk)
  rw [hpc] at hpmem
  exact Bool.noConfusion hpmem.2

/-- Case analysis of full-outer-join membership: a merged row is an
unmatched left row, a left row extended with a key-matching right row's
non-key cells, or an unmatched right row. -/
lemma mem_mergeRows {K : List String} {A B : List Row} {r : Row}
    (h : r ∈ mergeRows K A B) :
    (∃ ra ∈ A, r = ra) ∨
      (∃ ra ∈ A, ∃ rb ∈ B, keyTuple K rb = keyTuple K ra ∧
        r = ra ++ nonKeyCells K rb) ∨
      (∃ rb ∈ B, r = rb) := by
  unfold mergeRows at h
  rcases List.mem_append.mp h with h | h
  · rcases List.mem_flatMap.mp h with ⟨ra, hra, hr⟩
    by_cases he :
        (B.filter (fun rb => decide (keyTuple K rb = keyTuple K ra))).isEmpty
    · rw [if_pos he] at hr
      exact Or.inl ⟨ra, hra, List.mem_singleton.mp hr⟩
    · rw [if_neg he] at hr
      rcases List.mem_map.mp hr with ⟨rb, hrb, hr2⟩
      have hrb2 := List.mem_filter.mp hrb
      exact Or.inr (Or.inl ⟨ra, hra, rb, hrb2.1, of_decide_eq_true hrb2.2, hr2.symm⟩)
  · exact Or.inr (Or.inr ⟨r, (List.mem_filter.mp h).1, rfl⟩)

/-- Every left row's key tuple survives the full outer join. -/
lemma mergeRows_key_left {K : List String} {A B : List Row} {ra : Row}
    (h : ra ∈ A) :
    ∃ r2, r2 ∈ mergeRows K A B ∧ keyTuple K r2 = keyTuple K ra := by
  by_cases he :
      (B.filter (fun rb => decide (keyTuple K rb = keyTuple K ra))).isEmpty
  · refine ⟨ra, ?_, rfl⟩
    unfold mergeRows
    apply List.mem_append_left
    exact List.mem_flatMap.mpr ⟨ra, h, by rw [if_pos he]; exact List.mem_singleton.mpr rfl⟩
  · rcases hms : B.filter (fun rb => decide (keyTuple K rb = keyTuple K ra)) with
      _ | ⟨rb, ms⟩
    · rw [hms] at he
      simp at he
    · refine ⟨ra ++ nonKeyCells K rb, ?_, keyTuple_append_nonKey K ra rb⟩
      unfold mergeRows
      apply List.mem_append_left
      refine List.mem_flatMap.mpr ⟨ra, h, ?_⟩
      rw [if_neg he, hms]
      exact List.mem_map.mpr ⟨rb, List.mem_cons_self _ _, rfl⟩

/-- Every right row's key tuple survives the full outer join. -/
lemma mergeRows_key_right {K : List String} {A B : List Row} {rb : Row}
    (h : rb ∈ B) :
    ∃ r2, r2 ∈ mergeRows K A B ∧ keyTuple K r2 = keyTuple K rb := by
  by_cases hm : A.any (fun ra => decide (keyTuple K ra = keyTuple K rb)) = true
  · rcases List.any_eq_true.mp hm with ⟨ra, hra, hkey⟩
    have hkey2 := of_decide_eq_true hkey
    rcases mergeRows_key_left (K := K) (B := B) hra with ⟨r2, hr2, hk⟩
    exact ⟨r2, hr2, by rw [hk, hkey2]⟩
  · refine ⟨rb, ?_, rfl⟩
    unfold mergeRows
    apply List.mem_append_right
    refine List.mem_filter.mpr ⟨h, ?_⟩
    rw [Bool.eq_false_iff.mpr hm]
    rfl

/-- Well-formedness of a frame: every row binds only declared columns. -/
def rowsWf (t : DataFrame) : Prop :=
  ∀ r ∈ t.rows, ∀ p ∈ r, p.1 ∈ t.cols

instance (t : DataFrame) : Decidable (rowsWf t) := by
  unfold rowsWf
  infer_instance

/-- A cell is absent from an appended row when absent from both parts. -/
lemma cellOf_append_none {x y : Row} {col : String}
    (hx : List.lookup col x = none) (hy : List.lookup col y = none) :
    cellOf (x ++ y) col = none := by
  unfold cellOf
  rw [lookup_append, hx]
  exact hy

/-- Non-key cells of a row bound by a column set miss any other column. -/
lemma nonKeyCells_lookup_none {K : List String} {y : Row} {S : List String}
    {col : String} (hw : ∀ p ∈ y, p.1 ∈ S) (hc : col ∉ S) :
    List.lookup col (nonKeyCells K y) = none :=
  lookup_eq_none col _ (fun p hp he => hc (he ▸ hw p (List.mem_filter.mp hp).1))

/-- C3 as amended: the three-way merge of `process_cvm_files` is a full
outer join on the three `KEY_COLUMNS` (entity, period and version — not
only the two identity columns). Every key triple present in at least one
input table yields a merged row with that triple, and for each of the
three input tables, a column exclusive to that table is absent from every
merged row whose key triple that table does not contain. -/
theorem claim_C3_outer_join_on_key_columns (a b c : DataFrame) :
    (∀ r, (r ∈ a.rows ∨ r ∈ b.rows ∨ r ∈ c.rows) →
        ∃ r2, r2 ∈ (merged_tables a b c).rows ∧
          keyTuple KEY_COLUMNS r2 = keyTuple KEY_COLUMNS r)
      ∧ (∀ (col : String) (r2 : Row), rowsWf b → rowsWf c →
          col ∉ b.cols → col ∉ c.cols →
          r2 ∈ (merged_tables a b c).rows →
          (∀ ra ∈ a.rows, keyTuple KEY_COLUMNS ra ≠ keyTuple KEY_COLUMNS r2) →
          cellOf r2 col = none)
      ∧ (∀ (col : String) (r2 : Row), rowsWf a → rowsWf c →
          col ∉ a.cols → col ∉ c.cols →
          r2 ∈ (merged_tables a b c).rows →
          (∀ rb ∈ b.rows, keyTuple KEY_COLUMNS rb ≠ keyTuple KEY_COLUMNS r2) →
          cellOf r2 col = none)
      ∧ (∀ (col : String) (r2 : Row), rowsWf a → rowsWf b →
          col ∉ a.cols → col ∉ b.cols →
          r2 ∈ (merged_tables a b c).rows →
          (∀ rc ∈ c.rows, keyTuple KEY_COLUMNS rc ≠ keyTuple KEY_COLUMNS r2) →
          cellOf r2 col = none) := by
  refine ⟨?_, ?_, ?_, ?_⟩
  · intro r hr
    rcases hr with hr | hr | hr
    · rcases mergeRows_key_left (K := KEY_COLUMNS) (B := b.rows) hr with ⟨r1, h1, k1⟩
      rcases mergeRows_key_left (K := KEY_COLUMNS) (B := c.rows) h1 with ⟨r2, h2, k2⟩
      exact ⟨r2, h2, by rw [k2, k1]⟩
    · rcases mergeRows_key_right (K := KEY_COLUMNS) (A := a.rows) hr with ⟨r1, h1, k1⟩
      rcases mergeRows_key_left (K := KEY_COLUMNS) (B := c.rows) h1 with ⟨r2, h2, k2⟩
      exact ⟨r2, h2, by rw [k2, k1]⟩
    · exact mergeRows_key_right (K := KEY_COLUMNS)
        (A := (mergeOuter KEY_COLUMNS a b).rows) hr
  · intro col r2 hwb hwc hcb hcc hr2 hna
    have hmain := mem_mergeRows (K := KEY_COLUMNS)
      (A := (mergeOuter KEY_COLUMNS a b).rows) (B := c.rows) hr2
    rcases hmain with ⟨rm, hrm, hre⟩ | ⟨rm, hrm, rc, hrc, hkeq, hre⟩ | ⟨rc, hrc, hre⟩
    · subst hre
      rcases mem_mergeRows (K := KEY_COLUMNS) (A := a.rows) (B := b.rows) hrm with
        ⟨ra, hra, hre2⟩ | ⟨ra, hra, rb, hrb, hk, hre2⟩ | ⟨rb, hrb, hre2⟩
      · subst hre2
        exact absurd rfl (hna r2 hra)
      · refine absurd ?_ (hna ra hra)
        rw [hre2, keyTuple_append_nonKey KEY_COLUMNS ra rb]
      · subst hre2
        exact cellOf_none_of_wf (hwb r2 hrb) hcb
    · rcases mem_mergeRows (K := KEY_COLUMNS) (A := a.rows) (B := b.rows) hrm with
        ⟨ra, hra, hre2⟩ | ⟨ra, hra, rb, hrb, hk, hre2⟩ | ⟨rb, hrb, hre2⟩
      · refine absurd ?_ (hna ra hra)
        rw [hre, keyTuple_append_nonKey KEY_COLUMNS rm rc, hre2]
      · refine absurd ?_ (hna ra hra)
        rw [hre, keyTuple_append_nonKey KEY_COLUMNS rm rc, hre2,
          keyTuple_append_nonKey KEY_COLUMNS ra rb]
      · rw [hre, hre2]
        exact cellOf_append_none (cellOf_none_of_wf (hwb rb hrb) hcb)
          (nonKeyCells_lookup_none (hwc rc hrc) hcc)
    · subst hre
      exact cellOf_none_of_wf (hwc r2 hrc) hcc
  · intro col r2 hwa hwc hca hcc hr2 hnb
    have hmain := mem_mergeRows (K := KEY_COLUMNS)
      (A := (mergeOuter KEY_COLUMNS a b).rows) (B := c.rows) hr2
    rcases hmain with ⟨rm, hrm, hre⟩ | ⟨rm, hrm, rc, hrc, hkeq, hre⟩ | ⟨rc, hrc, hre⟩
    · subst hre
      rcases mem_mergeRows (K := KEY_COLUMNS) (A := a.rows) (B := b.rows) hrm with
        ⟨ra, hra, hre2⟩ | ⟨ra, hra, rb, hrb, hk, hre2⟩ | ⟨rb, hrb, hre2⟩
      · subst hre2
        exact cellOf_none_of_wf (hwa r2 hra) hca
      · refine absurd ?_ (hnb rb hrb)
        rw [hre2, keyTuple_append_nonKey KEY_COLUMNS ra rb]
        exact hk
      · subst hre2
        exact absurd rfl (hnb r2 hrb)
    · rcases mem_mergeRows (K := KEY_COLUMNS) (A := a.rows) (B := b.rows) hrm with
        ⟨ra, hra, hre2⟩ | ⟨ra, hra, rb, hrb, hk, hre2⟩ | ⟨rb, hrb, hre2⟩
      · rw [hre, hre2]
        exact cellOf_append_none (cellOf_none_of_wf (hwa ra hra) hca)
          (nonKeyCells_lookup_none (hwc rc hrc) hcc)
      · refine absurd ?_ (hnb rb hrb)
        rw [hre, hre2, keyTuple_append_nonKey KEY_COLUMNS (ra ++ nonKeyCells KEY_COLUMNS rb) rc,
          keyTuple_append_nonKey KEY_COLUMNS ra rb]
        exact hk
      · refine absurd ?_ (hnb rb hrb)
        rw [hre, hre2, keyTuple_append_nonKey KEY_COLUMNS rb rc]
    · subst hre
      exact cellOf_none_of_wf (hwc r2 hrc) hcc
  · intro col r2 hwa hwb hca hcb hr2 hnc
    have hmain := mem_mergeRows (K := KEY_COLUMNS)
      (A := (mergeOuter KEY_COLUMNS a b).rows) (B := c.rows) hr2
    rcases hmain with ⟨rm, hrm, hre⟩ | ⟨rm, hrm, rc, hrc, hkeq, hre⟩ | ⟨rc, hrc, hre⟩
    · subst hre
      rcases mem_mergeRows (K := KEY_COLUMNS) (A := a.rows) (B := b.rows) hrm with
        ⟨ra, hra, hre2⟩ | ⟨ra, hra, rb, hrb, hk, hre2⟩ | ⟨rb, hrb, hre2⟩
      · subst hre2
        exact cellOf_none_of_wf (hwa r2 hra) hca
      · rw [hre2]
        exact cellOf_append_none (cellOf_none_of_wf (hwa ra hra) hca)
          (nonKeyCells_lookup_none (hwb rb hrb) hcb)
      · subst hre2
        exact cellOf_none_of_wf (hwb r2 hrb) hcb
    · refine absurd ?_ (hnc rc hrc)
      rw [hre, keyTuple_append_nonKey KEY_COLUMNS rm rc]
      exact hkeq
    · refine absurd ?_ (hnc rc hrc)
      rw [hre]

/-- First input table of the C3 scenario (the `geral` role). -/
def dfW3a : DataFrame :=
  ⟨["CNPJ_Fundo_Classe", "Data_Referencia", "Versao", "ColA"],
   [[("CNPJ_Fundo_Classe", Value.str "X"), ("Data_Referencia", Value.str "2024-01-31"),
     ("Versao", Value.str "1"), ("ColA", Value.str "a")]]⟩

/-- Second input table of the C3 scenario (the `ativo` role): same identity
pair as the first table's row, different version. -/
def dfW3b : DataFrame :=
  ⟨["CNPJ_Fundo_Classe", "Data_Referencia", "Versao", "ColB"],
   [[("CNPJ_Fundo_Classe", Value.str "X"), ("Data_Referencia", Value.str "2024-01-31"),
     ("Versao", Value.str "2"), ("ColB", Value.str "b")]]⟩

/-- Third input table of the C3 scenario (the `complemento` role), empty. -/
def dfW3c : DataFrame :=
  ⟨["CNPJ_Fundo_Classe", "Data_Referencia", "Versao", "ColC"], []⟩

/-- Row of `dfW3a` as it appears in the merged output. -/
def rowW3a : Row :=
  [("CNPJ_Fundo_Classe", Value.str "X"), ("Data_Referencia", Value.str "2024-01-31"),
   ("Versao", Value.str "1"), ("ColA", Value.str "a")]

/-- Row of `dfW3b`. -/
def rowW3b : Row :=
  [("CNPJ_Fundo_Classe", Value.str "X"), ("Data_Referencia", Value.str "2024-01-31"),
   ("Versao", Value.str "2"), ("ColB", Value.str "b")]

/-- Counterexample to C3: the merge of `process_cvm_files` is not a join on
exactly the two identity columns. On concrete tables sharing an identity
pair but differing in `Versao`, the produced frame differs from the
two-identity-column outer join worded by the claim, and the merged row for
the first table carries an absent `ColB` cell even though the second table
does contain that `(entity_id, reference_period)` key. -/
theorem claim_C3_counterexample :
    merged_tables dfW3a dfW3b dfW3c ≠ merged_tables_spec dfW3a dfW3b dfW3c
      ∧ rowW3a ∈ (merged_tables dfW3a dfW3b dfW3c).rows
      ∧ rowW3b ∈ dfW3b.rows
      ∧ keyTuple identityColumns rowW3a = keyTuple identityColumns rowW3b
      ∧ cellOf rowW3a "ColB" = none :=
  ⟨by decide, by decide, by decide, by decide, by decide⟩

/-- Witness for the amended C3 at the concrete tables: the second table's
key triple is represented in the merged output, and each table's exclusive
column is absent from the merged row whose key triple that table lacks —
`ColA` from the second table's row, `ColB` and `ColC` from the first
table's row. -/
theorem claim_C3_witness :
    (∃ r2, r2 ∈ (merged_tables dfW3a dfW3b dfW3c).rows ∧
        keyTuple KEY_COLUMNS r2 = keyTuple KEY_COLUMNS rowW3b)
      ∧ cellOf rowW3b "ColA" = none
      ∧ cellOf rowW3a "ColB" = none
      ∧ cellOf rowW3a "ColC" = none :=
  ⟨(claim_C3_outer_join_on_key_columns dfW3a dfW3b dfW3c).1 rowW3b
      (Or.inr (Or.inl (by decide))),
   (claim_C3_outer_join_on_key_columns dfW3a dfW3b dfW3c).2.1 "ColA" rowW3b
      (by decide) (by decide) (by decide) (by decide) (by decide) (by decide),
   (claim_C3_outer_join_on_key_columns dfW3a dfW3b dfW3c).2.2.1 "ColB" rowW3a
      (by decide) (by decide) (by decide) (by decide) (by decide) (by decide),
   (claim_C3_outer_join_on_key_columns dfW3a dfW3b dfW3c).2.2.2 "ColC" rowW3a
      (by decide) (by decide) (by decide) (by decide) (by decide) (by decide)⟩
